import Mathlib

/-!
Verification of the uptime monitor (`src/main.py`, class `UptimeMonitor`).

The embedding mirrors the Python source:
* Python `datetime` objects become the `Datetime` structure (a Python
  `datetime` always satisfies `Datetime.valid`); `datetime` comparison is
  lexicographic over the components (`Datetime.ltb`), and
  `datetime + timedelta(minutes=w)` is modelled by converting to
  microseconds since an epoch and back (`Datetime.addMinutes`), which is
  exactly CPython's `toordinal`-based arithmetic on the proleptic
  Gregorian calendar.
* Python `dict`s become insertion-ordered association lists; `d[k] = v`
  is `dictInsert` (updates in place if the key exists, appends otherwise),
  `del d[k]` is a filter on the key, lookup is `dictGet?`.
* Raised exceptions become `Option`/`Except` results.
-/

/-- Model of a Python `datetime.datetime` value (the components). -/
structure Datetime where
  year : Nat
  month : Nat
  day : Nat
  hour : Nat
  minute : Nat
  second : Nat
  usec : Nat
deriving DecidableEq, Repr

/-- `datetime.datetime` leap-year rule (proleptic Gregorian). -/
def isLeapYear (y : Nat) : Bool :=
  y % 4 = 0 && (y % 100 ≠ 0 || y % 400 = 0)

/-- Days in a month, as enforced by the `datetime` constructor. -/
def daysInMonth (y m : Nat) : Nat :=
  if m = 2 then (if isLeapYear y then 29 else 28)
  else if m = 4 ∨ m = 6 ∨ m = 9 ∨ m = 11 then 30
  else 31

/-- The invariant every Python `datetime` object satisfies
(`MINYEAR = 1`, `MAXYEAR = 9999`, field ranges checked on construction). -/
def Datetime.valid (dt : Datetime) : Prop :=
  1 ≤ dt.year ∧ dt.year ≤ 9999 ∧
  1 ≤ dt.month ∧ dt.month ≤ 12 ∧
  1 ≤ dt.day ∧ dt.day ≤ daysInMonth dt.year dt.month ∧
  dt.hour ≤ 23 ∧ dt.minute ≤ 59 ∧ dt.second ≤ 59 ∧ dt.usec ≤ 999999

instance (dt : Datetime) : Decidable dt.valid := by
  unfold Datetime.valid; infer_instance

/-- Python `datetime` comparison: lexicographic on the components. -/
def Datetime.ltb (a b : Datetime) : Bool :=
  if a.year ≠ b.year then decide (a.year < b.year)
  else if a.month ≠ b.month then decide (a.month < b.month)
  else if a.day ≠ b.day then decide (a.day < b.day)
  else if a.hour ≠ b.hour then decide (a.hour < b.hour)
  else if a.minute ≠ b.minute then decide (a.minute < b.minute)
  else if a.second ≠ b.second then decide (a.second < b.second)
  else decide (a.usec < b.usec)

/-- Days since 0000-03-01 of a (proleptic Gregorian) civil date with
`year ≥ 1`; the standard era/year-of-era computation used to model
`datetime.toordinal`. -/
def daysFromCivil (y m d : Nat) : Nat :=
  let yAdj := if m ≤ 2 then y - 1 else y
  let mp := if m ≤ 2 then m + 9 else m - 3
  let era := yAdj / 400
  let yoe := yAdj % 400
  let doy := (153 * mp + 2) / 5 + (d - 1)
  let doe := yoe * 365 + yoe / 4 - yoe / 100 + doy
  era * 146097 + doe

/-- Inverse of `daysFromCivil`, modelling `datetime.fromordinal`. -/
def civilFromDays (z : Nat) : Nat × Nat × Nat :=
  let era := z / 146097
  let doe := z % 146097
  let yoe := (doe - doe / 1460 + doe / 36524 - doe / 146097) / 365
  let y := yoe + era * 400
  let doy := doe - (365 * yoe + yoe / 4 - yoe / 100)
  let mp := (5 * doy + 2) / 153
  let d := doy - (153 * mp + 2) / 5 + 1
  let m := if mp < 10 then mp + 3 else mp - 9
  (if m ≤ 2 then y + 1 else y, m, d)

/-- Microseconds since 0000-03-01 00:00:00. -/
def Datetime.toEpochUsec (dt : Datetime) : Nat :=
  daysFromCivil dt.year dt.month dt.day * 86400000000 +
    dt.hour * 3600000000 + dt.minute * 60000000 + dt.second * 1000000 + dt.usec

/-- Rebuild a `Datetime` from microseconds since the epoch. -/
def Datetime.ofEpochUsec (n : Nat) : Datetime :=
  let ymd := civilFromDays (n / 86400000000)
  let rem := n % 86400000000
  { year := ymd.1, month := ymd.2.1, day := ymd.2.2,
    hour := rem / 3600000000,
    minute := rem % 3600000000 / 60000000,
    second := rem % 60000000 / 1000000,
    usec := rem % 1000000 }

/-- `dt + timedelta(minutes = w)` (`self.retention_time` is
`timedelta(minutes=retention_time)` in `__init__`). -/
def Datetime.addMinutes (dt : Datetime) (w : Nat) : Datetime :=
  Datetime.ofEpochUsec (dt.toEpochUsec + w * 60000000)

/-- Python dict lookup (`d[k]` / `k in d`): first entry with the key. -/
def dictGet? [DecidableEq α] (d : List (α × β)) (k : α) : Option β :=
  (d.find? (fun p => decide (p.1 = k))).map Prod.snd

/-- Python dict assignment `d[k] = v`: update the value in place when the
key is present, append a new entry otherwise. -/
def dictInsert [DecidableEq α] (d : List (α × β)) (k : α) (v : β) : List (α × β) :=
  if (dictGet? d k).isSome then d.map (fun p => if p.1 = k then (k, v) else p)
  else d ++ [(k, v)]

/-- Per-URL history: Python `dict[datetime, int]`. -/
abbrev History := List (Datetime × Int)

/-- `self.data`: Python `dict[str, dict[datetime, int]]`. -/
abbrev MonitorState := List (String × History)

/-- A timestamp key in the dumped JSON. -/
abbrev TsKey := List Char

/-- One URL's entry in the dumped JSON. -/
abbrev RawHist := List (TsKey × Int)

/-- The parsed JSON dump (`json.load` result): URL → timestamp string → outcome. -/
abbrev RawDump := List (String × RawHist)

/-- ASCII decimal digit test, modelling `\d` of the `strptime` regex. -/
def isDigit10 (c : Char) : Bool := 48 ≤ c.toNat && c.toNat ≤ 57

/-- Whitespace test, modelling `\s` of the `strptime` regex (a literal
blank in the format string matches one or more whitespace characters). -/
def isSpacePy (c : Char) : Bool :=
  c = ' ' || c = '\t' || c = '\n' || c = '\r' || c = '\x0b' || c = '\x0c'

/-- Numeric value of a digit character. -/
def digitVal (c : Char) : Nat := c.toNat - 48

/-- Value of a digit run (with leading zeros), as `int()` computes it. -/
def digitsVal (ds : List Char) : Nat := ds.foldl (fun a c => 10 * a + digitVal c) 0

/-- The digit character for `k ≤ 9`. -/
def digitChar10 : Nat → Char
  | 0 => '0' | 1 => '1' | 2 => '2' | 3 => '3' | 4 => '4'
  | 5 => '5' | 6 => '6' | 7 => '7' | 8 => '8' | 9 => '9'
  | _ => '*'

/-- `%02d` formatting for `n ≤ 99` (month/day/hour/minute/second in
`str(datetime)`). -/
def pad2 (n : Nat) : List Char := [digitChar10 (n / 10), digitChar10 (n % 10)]

/-- `%04d` formatting for `n ≤ 9999` (year in `str(datetime)`). -/
def pad4 (n : Nat) : List Char :=
  [digitChar10 (n / 1000), digitChar10 (n / 100 % 10),
   digitChar10 (n / 10 % 10), digitChar10 (n % 10)]

/-- `str(_datetime).split(".")[0]` (line 134): `str` of a `datetime` is
`YYYY-MM-DD HH:MM:SS[.ffffff]` and the split drops the fractional part,
so the result never depends on the microseconds. -/
def formatTrunc (dt : Datetime) : List Char :=
  pad4 dt.year ++ '-' :: pad2 dt.month ++ '-' :: pad2 dt.day ++
    ' ' :: pad2 dt.hour ++ ':' :: pad2 dt.minute ++ ':' :: pad2 dt.second

/-- Read the year field: `%Y` matches exactly four digits, and a digit
left over would make the following literal fail, so the whole run must
have length 4. -/
def readYear (cs : List Char) : Option (Nat × List Char) :=
  let ds := cs.takeWhile isDigit10
  if ds.length = 4 then some (digitsVal ds, cs.dropWhile isDigit10) else none

/-- Read a 1-2 digit field (`%m`/`%d`/`%H`/`%M`/`%S` all match one or two
digits; a longer digit run makes the following literal fail). -/
def readField2 (cs : List Char) : Option (Nat × List Char) :=
  let ds := cs.takeWhile isDigit10
  if ds.length = 0 ∨ 2 < ds.length then none
  else some (digitsVal ds, cs.dropWhile isDigit10)

/-- Match a literal character of the format string. -/
def expectChar (c : Char) : List Char → Option (List Char)
  | d :: r => if d = c then some r else none
  | [] => none

/-- Match the blank in the format string: one or more whitespace
characters (`\s+`). -/
def skipSpaces : List Char → Option (List Char)
  | c :: r => if isSpacePy c then some (r.dropWhile isSpacePy) else none
  | [] => none

/-- The `%Y-%m-%d` part of the `strptime` regex: value ranges are those
of CPython's `_strptime` patterns (`%m` matches values 1-12, `%d` 1-31). -/
def parseDatePart (cs : List Char) : Option (Nat × Nat × Nat × List Char) := do
  let (y, r1) ← readYear cs
  let r2 ← expectChar '-' r1
  let (mo, r3) ← readField2 r2
  guard (1 ≤ mo ∧ mo ≤ 12)
  let r4 ← expectChar '-' r3
  let (d, r5) ← readField2 r4
  guard (1 ≤ d ∧ d ≤ 31)
  pure (y, mo, d, r5)

/-- The `%H:%M:%S` part of the `strptime` regex (`%H` matches values
0-23, `%M` 0-59, `%S` 0-61). -/
def parseTimePart (cs : List Char) : Option (Nat × Nat × Nat × List Char) := do
  let (h, r7) ← readField2 cs
  guard (h ≤ 23)
  let r8 ← expectChar ':' r7
  let (mi, r9) ← readField2 r8
  guard (mi ≤ 59)
  let r10 ← expectChar ':' r9
  let (s, r11) ← readField2 r10
  guard (s ≤ 61)
  pure (h, mi, s, r11)

/-- The regex phase of `datetime.strptime(st, '%Y-%m-%d %H:%M:%S')`:
date, one or more whitespace characters, time, and the whole string
must be consumed (`unconverted data remains` otherwise). -/
def strptimeFields (cs : List Char) : Option (Nat × Nat × Nat × Nat × Nat × Nat) := do
  let (y, mo, d, r5) ← parseDatePart cs
  let r6 ← skipSpaces r5
  let (h, mi, s, r11) ← parseTimePart r6
  guard (r11 = [])
  pure (y, mo, d, h, mi, s)

/-- The `datetime` constructor called by `strptime` after the regex
phase: validates year/day/second ranges, microseconds are zero. -/
def datetimeNew (y mo d h mi s : Nat) : Option Datetime :=
  if 1 ≤ y ∧ y ≤ 9999 ∧ 1 ≤ mo ∧ mo ≤ 12 ∧ 1 ≤ d ∧ d ≤ daysInMonth y mo ∧
     h ≤ 23 ∧ mi ≤ 59 ∧ s ≤ 59
  then some ⟨y, mo, d, h, mi, s, 0⟩ else none

/-- `datetime.strptime(st, '%Y-%m-%d %H:%M:%S')` (line 122): `none`
models the raised `ValueError`. -/
def strptime (cs : List Char) : Option Datetime :=
  match strptimeFields cs with
  | some (y, mo, d, h, mi, s) => datetimeNew y mo d h mi s
  | none => none

/-- The inner loop of `json_to_data` (lines 121-123): parse each
timestamp key in order, filling `res[url]`; a `ValueError` aborts. -/
def histFromEntries : RawHist → History → Except Unit History
  | [], acc => .ok acc
  | (ts, v) :: rest, acc =>
    match strptime ts with
    | some dt => histFromEntries rest (dictInsert acc dt v)
    | none => .error ()

/-- The outer loop of `json_to_data` (lines 119-123). -/
def jsonToDataAux : RawDump → MonitorState → Except Unit MonitorState
  | [], acc => .ok acc
  | (url, entries) :: rest, acc =>
    match histFromEntries entries [] with
    | .ok h => jsonToDataAux rest (dictInsert acc url h)
    | .error e => .error e

/-- `UptimeMonitor.json_to_data` (lines 114-124). -/
def json_to_data (j : RawDump) : Except Unit MonitorState := jsonToDataAux j []

/-- The inner loop of `data_to_json` (lines 133-134):
`res[url][str(_datetime).split(".")[0]] = value`. -/
def fmtHist : History → RawHist → RawHist
  | [], acc => acc
  | (dt, v) :: rest, acc => fmtHist rest (dictInsert acc (formatTrunc dt) v)

/-- The outer loop of `data_to_json` (lines 131-134). -/
def dataToJsonAux : MonitorState → RawDump → RawDump
  | [], acc => acc
  | (url, h) :: rest, acc => dataToJsonAux rest (dictInsert acc url (fmtHist h []))

/-- `UptimeMonitor.data_to_json` (lines 126-135). -/
def data_to_json (st : MonitorState) : RawDump := dataToJsonAux st []

/-- `UptimeMonitor.delete_expired` (lines 99-112): for every URL collect
`to_delete = [t | t + retention_time < now]` and delete those keys. -/
def delete_expired (w : Nat) (now : Datetime) (st : MonitorState) : MonitorState :=
  st.map (fun q =>
    (q.1,
      ((q.2.map Prod.fst).filter (fun t => (t.addMinutes w).ltb now)).foldl
        (fun d t => d.filter (fun p => decide (p.1 ≠ t))) q.2))

/-- Result of the `requests.get` call in `check_url`: either a response
with a status code, or any exception (network error, timeout, ...). -/
inductive ProbeResult where
  | response (code : Nat)
  | exn
deriving DecidableEq, Repr

/-- The outcome computed by `check_url` (lines 89-95): `res = 0`, set to
`1` only when the status code is exactly 200; any exception leaves 0. -/
def outcomeOf : ProbeResult → Int
  | .response code => if code = 200 then 1 else 0
  | .exn => 0

/-- `UptimeMonitor.check_url` (lines 83-97): the final statement
`self.data[url][datetime.now()] = res` stores the raw instant `now`;
`none` models the `KeyError` raised when `url` is not a key of
`self.data` (that statement is outside the `try`). -/
def check_url (st : MonitorState) (url : String) (pr : ProbeResult)
    (now : Datetime) : Option MonitorState :=
  match dictGet? st url with
  | some h => some (dictInsert st url (dictInsert h now (outcomeOf pr)))
  | none => none

/-- What `__init__` (lines 64-81) sees of the dump: `none` when opening,
reading or `json.load` failed, `some js` when the JSON parsed. -/
def initData (urls : List String) (load : Option RawDump) : MonitorState :=
  let data : MonitorState :=
    match load with
    | none => []
    | some js =>
      match json_to_data js with
      | .ok d => d.filter (fun q => decide (q.1 ∈ urls))
      | .error _ => []
  urls.foldl (fun d url => if (dictGet? d url).isSome then d else d ++ [(url, [])]) data

/-- Floor of a rational (numerator `fdiv` denominator). -/
def floorQ (x : ℚ) : ℤ := Int.fdiv x.num (x.den : ℤ)

/-- Python 3 `round(x, 2)`: banker's rounding (ties to even) at two
decimal places, modelled exactly over the rationals. -/
def pythonRound2 (x : ℚ) : ℚ :=
  let f := floorQ (x * 100)
  let r := x * 100 - (f : ℚ)
  let n : ℤ :=
    if r < 1/2 then f
    else if 1/2 < r then f + 1
    else if f % 2 = 0 then f else f + 1
  (n : ℚ) / 100

/-- `UptimeMonitor.calculate_uptime` (lines 144-152): `none` models the
`ZeroDivisionError` raised by `ones / total` when the list is empty;
floats are modelled by rationals (exact for the inputs at issue). -/
def calculate_uptime (l : List Int) : Option ℚ :=
  let total := l.length
  let ones := l.count 1
  if total = 0 then none
  else some (pythonRound2 ((ones : ℚ) / (total : ℚ) * 100))


/-- Hypotheses of the round-trip claim, together with the invariants the
Python runtime maintains anyway: distinct dict keys, and keys that are
actual `datetime` objects (`Datetime.valid`).  The claim's own
hypotheses are second-level precision (`usec = 0`) and 0/1 outcomes. -/
def MonitorState.roundTripWF (st : MonitorState) : Prop :=
  (st.map Prod.fst).Nodup ∧
  ∀ q ∈ st, (q.2.map Prod.fst).Nodup ∧
    ∀ p ∈ q.2, p.1.valid ∧ p.1.usec = 0 ∧ (p.2 = 0 ∨ p.2 = 1)

instance (st : MonitorState) : Decidable st.roundTripWF := by
  unfold MonitorState.roundTripWF; infer_instance

theorem dictGet?_nil [DecidableEq α] (k : α) :
    dictGet? ([] : List (α × β)) k = none := rfl

theorem dictGet?_cons [DecidableEq α] (a : α) (b : β) (d : List (α × β)) (k : α) :
    dictGet? ((a, b) :: d) k = if a = k then some b else dictGet? d k := by
  by_cases h : a = k <;> simp [dictGet?, List.find?_cons, h]

theorem dictGet?_append [DecidableEq α] (d₁ d₂ : List (α × β)) (k : α) :
    dictGet? (d₁ ++ d₂) k =
      match dictGet? d₁ k with
      | some v => some v
      | none => dictGet? d₂ k := by
  induction d₁ with
  | nil => simp [dictGet?_nil]
  | cons p d ih =>
    obtain ⟨a, b⟩ := p
    rw [List.cons_append, dictGet?_cons, dictGet?_cons]
    by_cases h : a = k <;> simp [h, ih]

theorem dictGet?_map_value [DecidableEq α] (d : List (α × β)) (g : β → γ) (k : α) :
    dictGet? (d.map (fun p => (p.1, g p.2))) k = (dictGet? d k).map g := by
  induction d with
  | nil => rfl
  | cons p d ih =>
    obtain ⟨a, b⟩ := p
    rw [List.map_cons]
    by_cases h : a = k <;> simp [dictGet?_cons, h, ih]

theorem dictInsert_of_get_none [DecidableEq α] (d : List (α × β)) (k : α) (v : β)
    (h : dictGet? d k = none) : dictInsert d k v = d ++ [(k, v)] := by
  simp [dictInsert, h]

theorem dictGet?_map_update [DecidableEq α] (d : List (α × β)) (k : α) (v : β) :
    dictGet? (d.map (fun p => if p.1 = k then (k, v) else p)) k =
      (dictGet? d k).map (fun _ => v) := by
  induction d with
  | nil => rfl
  | cons p d ih =>
    obtain ⟨a, b⟩ := p
    by_cases h : a = k
    · subst h; simp [dictGet?_cons]
    · simp only [List.map_cons]
      rw [show ((if (a, b).1 = k then (k, v) else (a, b)) = (a, b)) from by simp [h]]
      simp [dictGet?_cons, h, ih]

theorem dictGet?_dictInsert_self [DecidableEq α] (d : List (α × β)) (k : α) (v : β) :
    dictGet? (dictInsert d k v) k = some v := by
  unfold dictInsert
  by_cases h : (dictGet? d k).isSome
  · rw [if_pos h, dictGet?_map_update]
    cases hg : dictGet? d k with
    | none => rw [hg] at h; simp at h
    | some b => simp
  · rw [if_neg h, dictGet?_append]
    cases hg : dictGet? d k with
    | some b => rw [hg] at h; simp at h
    | none => simp [dictGet?_cons]

theorem digitChar10_digit (k : Nat) (hk : k ≤ 9) : isDigit10 (digitChar10 k) = true := by
  interval_cases k <;> decide

theorem digitChar10_val (k : Nat) (hk : k ≤ 9) : digitVal (digitChar10 k) = k := by
  interval_cases k <;> decide

theorem digitChar10_not_space (k : Nat) (hk : k ≤ 9) :
    isSpacePy (digitChar10 k) = false := by
  interval_cases k <;> decide

theorem takeWhile_digit_append (ds rest : List Char)
    (h2 : ∀ c, rest.head? = some c → isDigit10 c = false) :
    (∀ c ∈ ds, isDigit10 c = true) →
    (ds ++ rest).takeWhile isDigit10 = ds ∧ (ds ++ rest).dropWhile isDigit10 = rest := by
  induction ds with
  | nil =>
    intro _
    simp only [List.nil_append]
    cases rest with
    | nil => simp
    | cons c r =>
      have hc := h2 c rfl
      simp [List.takeWhile_cons, List.dropWhile_cons, hc]
  | cons d ds ih =>
    intro h1
    have hd := h1 d (by simp)
    have ih2 := ih (fun c hc => h1 c (by simp [hc]))
    simp [List.takeWhile_cons, List.dropWhile_cons, hd, ih2.1, ih2.2]

theorem pad2_digits (n : Nat) (hn : n ≤ 99) : ∀ c ∈ pad2 n, isDigit10 c = true := by
  intro c hc
  simp only [pad2, List.mem_cons, List.not_mem_nil, or_false] at hc
  rcases hc with h | h <;> subst h <;> exact digitChar10_digit _ (by omega)

theorem pad4_digits (n : Nat) (hn : n ≤ 9999) : ∀ c ∈ pad4 n, isDigit10 c = true := by
  intro c hc
  simp only [pad4, List.mem_cons, List.not_mem_nil, or_false] at hc
  rcases hc with h | h | h | h <;> subst h <;> exact digitChar10_digit _ (by omega)

theorem digitsVal_pad2 (n : Nat) (hn : n ≤ 99) : digitsVal (pad2 n) = n := by
  simp only [digitsVal, pad2, List.foldl,
    digitChar10_val (n / 10) (by omega), digitChar10_val (n % 10) (by omega)]
  omega

theorem digitsVal_pad4 (n : Nat) (hn : n ≤ 9999) : digitsVal (pad4 n) = n := by
  simp only [digitsVal, pad4, List.foldl,
    digitChar10_val (n / 1000) (by omega), digitChar10_val (n / 100 % 10) (by omega),
    digitChar10_val (n / 10 % 10) (by omega), digitChar10_val (n % 10) (by omega)]
  omega

theorem readField2_pad2 (n : Nat) (hn : n ≤ 99) (rest : List Char)
    (h2 : ∀ c, rest.head? = some c → isDigit10 c = false) :
    readField2 (pad2 n ++ rest) = some (n, rest) := by
  obtain ⟨ht, hd⟩ := takeWhile_digit_append (pad2 n) rest h2 (pad2_digits n hn)
  have hlen : (pad2 n).length = 2 := rfl
  simp only [readField2, ht, hd, hlen, digitsVal_pad2 n hn]
  norm_num

theorem readYear_pad4 (n : Nat) (hn : n ≤ 9999) (rest : List Char)
    (h2 : ∀ c, rest.head? = some c → isDigit10 c = false) :
    readYear (pad4 n ++ rest) = some (n, rest) := by
  obtain ⟨ht, hd⟩ := takeWhile_digit_append (pad4 n) rest h2 (pad4_digits n hn)
  have hlen : (pad4 n).length = 4 := rfl
  simp only [readYear, ht, hd, hlen, digitsVal_pad4 n hn]
  norm_num

theorem skipSpaces_space (rest : List Char)
    (h2 : ∀ c, rest.head? = some c → isSpacePy c = false) :
    skipSpaces (' ' :: rest) = some rest := by
  cases rest with
  | nil => rfl
  | cons c r =>
    have hc := h2 c rfl
    have hs : isSpacePy ' ' = true := by decide
    simp [skipSpaces, List.dropWhile_cons, hc, hs]

theorem daysInMonth_le (y m : Nat) : daysInMonth y m ≤ 31 := by
  unfold daysInMonth
  split
  · split <;> omega
  · split <;> omega

theorem strptimeFields_format (dt : Datetime) (hv : dt.valid) :
    strptimeFields (formatTrunc dt) =
      some (dt.year, dt.month, dt.day, dt.hour, dt.minute, dt.second) := by
  obtain ⟨y, mo, d, h, mi, s, us⟩ := dt
  have hd31 : daysInMonth y mo ≤ 31 := daysInMonth_le y mo
  unfold Datetime.valid at hv
  simp only at hv
  obtain ⟨hy1, hy2, hm1, hm2, hd1, hd2, hh, hmi, hs, hus⟩ := hv
  have e1 : readYear (pad4 y ++ '-' :: (pad2 mo ++ '-' :: (pad2 d ++
      ' ' :: (pad2 h ++ ':' :: (pad2 mi ++ ':' :: pad2 s))))) =
      some (y, '-' :: (pad2 mo ++ '-' :: (pad2 d ++
        ' ' :: (pad2 h ++ ':' :: (pad2 mi ++ ':' :: pad2 s))))) :=
    readYear_pad4 y (by omega) _
      (by intro c hc; rw [List.head?_cons, Option.some_inj] at hc; subst hc; decide)
  have e3 : readField2 (pad2 mo ++ '-' :: (pad2 d ++
      ' ' :: (pad2 h ++ ':' :: (pad2 mi ++ ':' :: pad2 s)))) =
      some (mo, '-' :: (pad2 d ++ ' ' :: (pad2 h ++ ':' :: (pad2 mi ++ ':' :: pad2 s)))) :=
    readField2_pad2 mo (by omega) _
      (by intro c hc; rw [List.head?_cons, Option.some_inj] at hc; subst hc; decide)
  have e5 : readField2 (pad2 d ++ ' ' :: (pad2 h ++ ':' :: (pad2 mi ++ ':' :: pad2 s))) =
      some (d, ' ' :: (pad2 h ++ ':' :: (pad2 mi ++ ':' :: pad2 s))) :=
    readField2_pad2 d (by omega) _
      (by intro c hc; rw [List.head?_cons, Option.some_inj] at hc; subst hc; decide)
  have e6 : skipSpaces (' ' :: (pad2 h ++ ':' :: (pad2 mi ++ ':' :: pad2 s))) =
      some (pad2 h ++ ':' :: (pad2 mi ++ ':' :: pad2 s)) :=
    skipSpaces_space _
      (by intro c hc
          simp only [pad2, List.cons_append, List.head?_cons, Option.some_inj] at hc
          subst hc; exact digitChar10_not_space _ (by omega))
  have e7 : readField2 (pad2 h ++ ':' :: (pad2 mi ++ ':' :: pad2 s)) =
      some (h, ':' :: (pad2 mi ++ ':' :: pad2 s)) :=
    readField2_pad2 h (by omega) _
      (by intro c hc; rw [List.head?_cons, Option.some_inj] at hc; subst hc; decide)
  have e9 : readField2 (pad2 mi ++ ':' :: pad2 s) = some (mi, ':' :: pad2 s) :=
    readField2_pad2 mi (by omega) _
      (by intro c hc; rw [List.head?_cons, Option.some_inj] at hc; subst hc; decide)
  have e11 : readField2 (pad2 s) = some (s, []) := by
    have := readField2_pad2 s (by omega) []
      (by intro c hc; simp at hc)
    simpa using this
  simp [strptimeFields, parseDatePart, parseTimePart, formatTrunc, e1, e3, e5, e6,
    e7, e9, e11, expectChar, guard, hm1, hm2, hd1, show d ≤ 31 by omega, hh, hmi,
    show s ≤ 61 by omega]

theorem strptime_format (dt : Datetime) (hv : dt.valid) (hu : dt.usec = 0) :
    strptime (formatTrunc dt) = some dt := by
  rw [strptime, strptimeFields_format dt hv]
  obtain ⟨y, mo, d, h, mi, s, us⟩ := dt
  unfold Datetime.valid at hv
  simp only at hv hu
  subst hu
  simp [datetimeNew, hv.1, hv.2.1, hv.2.2.1, hv.2.2.2.1, hv.2.2.2.2.1, hv.2.2.2.2.2.1,
    hv.2.2.2.2.2.2.1, hv.2.2.2.2.2.2.2.1, hv.2.2.2.2.2.2.2.2.1]

theorem dictGet?_eq_none_iff [DecidableEq α] (d : List (α × β)) (k : α) :
    dictGet? d k = none ↔ ∀ p ∈ d, p.1 ≠ k := by
  simp [dictGet?, List.find?_eq_none]

theorem formatTrunc_inj (a b : Datetime) (ha : a.valid) (hua : a.usec = 0)
    (hb : b.valid) (hub : b.usec = 0) (he : formatTrunc a = formatTrunc b) : a = b := by
  have h1 := strptime_format a ha hua
  have h2 := strptime_format b hb hub
  rw [he] at h1
  rw [h1] at h2
  exact Option.some_inj.mp h2

theorem nodup_map_formatTrunc (h : History)
    (hk : (h.map Prod.fst).Nodup) (hv : ∀ p ∈ h, p.1.valid ∧ p.1.usec = 0) :
    (h.map (fun p => formatTrunc p.1)).Nodup := by
  rw [show (h.map fun p => formatTrunc p.1) = (h.map Prod.fst).map formatTrunc by
    simp [List.map_map]]
  apply List.Nodup.map_on
  · intro x hx y hy he
    simp only [List.mem_map] at hx hy
    obtain ⟨p, hp, rfl⟩ := hx
    obtain ⟨q, hq, rfl⟩ := hy
    exact formatTrunc_inj _ _ (hv p hp).1 (hv p hp).2 (hv q hq).1 (hv q hq).2 he
  · exact hk

theorem fmtHist_eq (h : History) :
    ∀ acc : RawHist,
    (∀ p ∈ h, p.1.valid ∧ p.1.usec = 0) →
    (acc.map Prod.fst ++ h.map (fun p => formatTrunc p.1)).Nodup →
    fmtHist h acc = acc ++ h.map (fun p => (formatTrunc p.1, p.2)) := by
  induction h with
  | nil => intro acc _ _; simp [fmtHist]
  | cons p t ih =>
    intro acc hvp hnd
    obtain ⟨dt, v⟩ := p
    have hnd2 := hnd
    rw [List.nodup_append] at hnd2
    obtain ⟨hna, hnb, hdisj⟩ := hnd2
    have hnotin : formatTrunc dt ∉ acc.map Prod.fst := by
      intro hin
      exact hdisj hin (by simp)
    have hfresh : dictGet? acc (formatTrunc dt) = none := by
      rw [dictGet?_eq_none_iff]
      intro q hq he
      exact hnotin (he ▸ List.mem_map_of_mem Prod.fst hq)
    rw [fmtHist, dictInsert_of_get_none _ _ _ hfresh]
    rw [ih (acc ++ [(formatTrunc dt, v)]) (fun q hq => hvp q (by simp [hq]))
      (by simpa using hnd)]
    simp

theorem histFromEntries_format (h : History) :
    ∀ acc : History,
    (∀ p ∈ h, p.1.valid ∧ p.1.usec = 0) →
    (acc.map Prod.fst ++ h.map Prod.fst).Nodup →
    histFromEntries (h.map (fun p => (formatTrunc p.1, p.2))) acc = .ok (acc ++ h) := by
  induction h with
  | nil => intro acc _ _; simp [histFromEntries]
  | cons p t ih =>
    intro acc hvp hnd
    obtain ⟨dt, v⟩ := p
    have hv := hvp (dt, v) (by simp)
    have hnd2 := hnd
    rw [List.nodup_append] at hnd2
    obtain ⟨hna, hnb, hdisj⟩ := hnd2
    have hfresh : dictGet? acc dt = none := by
      rw [dictGet?_eq_none_iff]
      intro q hq he
      exact hdisj (he ▸ List.mem_map_of_mem Prod.fst hq) (by simp)
    simp only [List.map_cons, histFromEntries, strptime_format dt hv.1 hv.2]
    rw [dictInsert_of_get_none _ _ _ hfresh]
    rw [ih (acc ++ [(dt, v)]) (fun q hq => hvp q (by simp [hq]))
      (by simpa using hnd)]
    simp

theorem dataToJsonAux_eq (st : MonitorState) :
    ∀ acc : RawDump,
    (acc.map Prod.fst ++ st.map Prod.fst).Nodup →
    dataToJsonAux st acc = acc ++ st.map (fun q => (q.1, fmtHist q.2 [])) := by
  induction st with
  | nil => intro acc _; simp [dataToJsonAux]
  | cons q t ih =>
    intro acc hnd
    obtain ⟨url, h⟩ := q
    have hnd2 := hnd
    rw [List.nodup_append] at hnd2
    obtain ⟨hna, hnb, hdisj⟩ := hnd2
    have hfresh : dictGet? acc url = none := by
      rw [dictGet?_eq_none_iff]
      intro p hp he
      exact hdisj (he ▸ List.mem_map_of_mem Prod.fst hp) (by simp)
    rw [dataToJsonAux, dictInsert_of_get_none _ _ _ hfresh]
    rw [ih (acc ++ [(url, fmtHist h [])])
      (by simpa using hnd)]
    simp

theorem jsonToDataAux_format (st : MonitorState) :
    ∀ acc : MonitorState,
    (acc.map Prod.fst ++ st.map Prod.fst).Nodup →
    (∀ q ∈ st, (q.2.map Prod.fst).Nodup ∧ ∀ p ∈ q.2, p.1.valid ∧ p.1.usec = 0) →
    jsonToDataAux (st.map (fun q => (q.1, fmtHist q.2 []))) acc = .ok (acc ++ st) := by
  induction st with
  | nil => intro acc _ _; simp [jsonToDataAux]
  | cons q t ih =>
    intro acc hnd hq
    obtain ⟨url, h⟩ := q
    have hh := hq (url, h) (by simp)
    have hnd2 := hnd
    rw [List.nodup_append] at hnd2
    obtain ⟨hna, hnb, hdisj⟩ := hnd2
    have hf : fmtHist h [] = h.map (fun p => (formatTrunc p.1, p.2)) := by
      apply fmtHist_eq h [] (fun p hp => hh.2 p hp)
      simpa using nodup_map_formatTrunc h hh.1 hh.2
    have hok : histFromEntries (fmtHist h []) [] = .ok h := by
      rw [hf]
      simpa using histFromEntries_format h [] (fun p hp => hh.2 p hp) (by simpa using hh.1)
    have hfresh : dictGet? acc url = none := by
      rw [dictGet?_eq_none_iff]
      intro p hp he
      exact hdisj (he ▸ List.mem_map_of_mem Prod.fst hp) (by simp)
    simp only [List.map_cons, jsonToDataAux, hok]
    rw [dictInsert_of_get_none _ _ _ hfresh]
    rw [ih (acc ++ [(url, h)]) (by simpa using hnd)
      (fun p hp => hq p (by simp [hp]))]
    simp

theorem foldl_del_eq_filter (ts : List Datetime) :
    ∀ d : History,
    ts.foldl (fun d t => d.filter (fun p => decide (p.1 ≠ t))) d =
      d.filter (fun p => decide (p.1 ∉ ts)) := by
  induction ts with
  | nil => intro d; simp
  | cons t ts ih =>
    intro d
    rw [List.foldl_cons, ih, List.filter_filter]
    apply List.filter_congr
    intro p _
    simp only [List.mem_cons, not_or, decide_not, Bool.decide_and]
    rw [Bool.and_comm]

theorem delete_expired_get (w : Nat) (now : Datetime) (st : MonitorState) (url : String) :
    dictGet? (delete_expired w now st) url =
      (dictGet? st url).map (fun data =>
        ((data.map Prod.fst).filter (fun t => (t.addMinutes w).ltb now)).foldl
          (fun d t => d.filter (fun p => decide (p.1 ≠ t))) data) := by
  unfold delete_expired
  exact dictGet?_map_value st
    (fun data => ((data.map Prod.fst).filter (fun t => (t.addMinutes w).ltb now)).foldl
      (fun d t => d.filter (fun p => decide (p.1 ≠ t))) data) url

theorem mem_pruned (w : Nat) (now : Datetime) (data : History) (t : Datetime) (v : Int) :
    (t, v) ∈ ((data.map Prod.fst).filter (fun x => (x.addMinutes w).ltb now)).foldl
        (fun d x => d.filter (fun p => decide (p.1 ≠ x))) data ↔
      (t, v) ∈ data ∧ (t.addMinutes w).ltb now = false := by
  rw [foldl_del_eq_filter, List.mem_filter]
  constructor
  · rintro ⟨hmem, hni⟩
    refine ⟨hmem, ?_⟩
    rw [decide_eq_true_eq] at hni
    by_cases hb : (t.addMinutes w).ltb now = true
    · exact absurd (List.mem_filter.mpr ⟨List.mem_map_of_mem Prod.fst hmem, hb⟩) hni
    · simpa using hb
  · rintro ⟨hmem, hfalse⟩
    refine ⟨hmem, ?_⟩
    rw [decide_eq_true_eq]
    intro hin
    rw [List.mem_filter, hfalse] at hin
    exact Bool.false_ne_true hin.2

theorem fillLoop_get (urls : List String) :
    ∀ (acc : MonitorState) (u : String),
    dictGet? (urls.foldl (fun d url => if (dictGet? d url).isSome then d
        else d ++ [(url, [])]) acc) u =
      match dictGet? acc u with
      | some h => some h
      | none => if u ∈ urls then some ([] : History) else none := by
  induction urls with
  | nil => intro acc u; cases h : dictGet? acc u <;> simp [h]
  | cons url rest ih =>
    intro acc u
    rw [List.foldl_cons]
    by_cases hp : (dictGet? acc url).isSome
    · rw [if_pos hp, ih]
      cases h : dictGet? acc u with
      | some v => simp
      | none =>
        by_cases hu : u = url
        · subst hu
          rw [h] at hp
          simp at hp
        · simp [List.mem_cons, hu]
    · rw [if_neg hp, ih, dictGet?_append]
      cases h : dictGet? acc u with
      | some v => simp
      | none =>
        by_cases hu : u = url
        · subst hu
          simp [dictGet?_cons]
        · have hu2 : ¬ url = u := fun e => hu e.symm
          simp [dictGet?_cons, hu2, hu, List.mem_cons, dictGet?_nil]

theorem histFromEntries_err (entries : RawHist) (ts : TsKey) (v : Int)
    (hmem : (ts, v) ∈ entries) (hbad : strptime ts = none) :
    ∀ acc, histFromEntries entries acc = .error () := by
  induction entries with
  | nil => cases hmem
  | cons e rest ih =>
    intro acc
    obtain ⟨ts0, v0⟩ := e
    rw [histFromEntries]
    cases hs : strptime ts0 with
    | none => rfl
    | some dt =>
      rcases List.mem_cons.mp hmem with he | he
      · injection he with h1 h2
        subst h1
        rw [hbad] at hs
        cases hs
      · exact ih he _

theorem jsonToDataAux_err (j : RawDump) (url : String) (entries : RawHist)
    (hmem : (url, entries) ∈ j) (hbad : histFromEntries entries [] = .error ()) :
    ∀ acc, jsonToDataAux j acc = .error () := by
  induction j with
  | nil => cases hmem
  | cons q rest ih =>
    intro acc
    obtain ⟨u0, e0⟩ := q
    rw [jsonToDataAux]
    cases hs : histFromEntries e0 [] with
    | error e => cases e; rfl
    | ok h =>
      rcases List.mem_cons.mp hmem with he | he
      · injection he with h1 h2
        subst h1
        subst h2
        rw [hbad] at hs
        cases hs
      · exact ih he _

theorem dictGet?_filter_not_mem (d : MonitorState) (urls : List String) (u : String)
    (hu : u ∉ urls) : dictGet? (d.filter (fun q => decide (q.1 ∈ urls))) u = none := by
  rw [dictGet?_eq_none_iff]
  intro p hp he
  rw [List.mem_filter, decide_eq_true_eq] at hp
  exact hu (he ▸ hp.2)

theorem dictGet?_filter_none [DecidableEq α] (d : List (α × β)) (q : α × β → Bool)
    (u : α) (h : dictGet? d u = none) : dictGet? (d.filter q) u = none := by
  rw [dictGet?_eq_none_iff] at h ⊢
  intro p hp
  exact h p (List.mem_filter.mp hp).1

theorem initData_get_ok (urls : List String) (js : RawDump) (d : MonitorState)
    (hd : json_to_data js = .ok d) (u : String) :
    dictGet? (initData urls (some js)) u =
      match dictGet? (d.filter (fun q => decide (q.1 ∈ urls))) u with
      | some h => some h
      | none => if u ∈ urls then some ([] : History) else none := by
  simp only [initData, hd]
  exact fillLoop_get urls _ u

theorem initData_get_none (urls : List String) (u : String) :
    dictGet? (initData urls none) u = if u ∈ urls then some ([] : History) else none := by
  simp only [initData]
  simpa using fillLoop_get urls [] u

theorem initData_some_err (urls : List String) (js : RawDump)
    (he : json_to_data js = .error ()) :
    initData urls (some js) = initData urls none := by
  simp only [initData, he]

theorem dictGet?_some_mem [DecidableEq α] (d : List (α × β)) (u : α) (b : β)
    (h : dictGet? d u = some b) : (u, b) ∈ d := by
  unfold dictGet? at h
  cases hf : d.find? (fun p => decide (p.1 = u)) with
  | none => rw [hf] at h; cases h
  | some p =>
    rw [hf, Option.map_some'] at h
    have hp : p.1 = u := by simpa using List.find?_some hf
    have hmem := List.mem_of_find?_eq_some hf
    obtain ⟨p1, p2⟩ := p
    injection h with h2
    subst h2
    cases hp
    exact hmem

/-- Claim C1: for every monitor state, retention window and time `now`,
after `delete_expired` runs, a sample `(instant, v)` that was in a URL's
history is retained there if and only if `instant + window ≥ now` —
stated as the code computes it: `(instant + retention_time) < now` is
false. -/
theorem C1_prune_retention (w : Nat) (now : Datetime) (st : MonitorState)
    (url : String) (h : History) (instant : Datetime) (v : Int)
    (hurl : dictGet? st url = some h) (hmem : (instant, v) ∈ h) :
    ∃ h', dictGet? (delete_expired w now st) url = some h' ∧
      ((instant, v) ∈ h' ↔ (instant.addMinutes w).ltb now = false) := by
  have hget := delete_expired_get w now st url
  rw [hurl, Option.map_some'] at hget
  refine ⟨_, hget, ?_⟩
  rw [mem_pruned]
  exact and_iff_right hmem

theorem C1_witness :
    ∃ h', dictGet? (delete_expired 60 ⟨2021, 1, 1, 12, 0, 0, 0⟩
        [("u", [(⟨2021, 1, 1, 11, 30, 0, 0⟩, 1)])]) "u" = some h' ∧
      ((⟨2021, 1, 1, 11, 30, 0, 0⟩, (1 : Int)) ∈ h' ↔
        ((⟨2021, 1, 1, 11, 30, 0, 0⟩ : Datetime).addMinutes 60).ltb
          ⟨2021, 1, 1, 12, 0, 0, 0⟩ = false) :=
  C1_prune_retention 60 ⟨2021, 1, 1, 12, 0, 0, 0⟩ _ "u" _ ⟨2021, 1, 1, 11, 30, 0, 0⟩ 1
    rfl (by simp)

/-- Claim C2: for every monitor state whose timestamps have second-level
precision (zero microseconds) and whose outcomes are all 0 or 1 (plus
the dict/datetime invariants Python maintains), decoding the encoded
form returns the original state:
`json_to_data (data_to_json state) = state`. -/
theorem C2_roundtrip (st : MonitorState) (hwf : st.roundTripWF) :
    json_to_data (data_to_json st) = .ok st := by
  obtain ⟨hnd, hent⟩ := hwf
  rw [data_to_json, json_to_data, dataToJsonAux_eq st [] (by simpa using hnd)]
  have := jsonToDataAux_format st [] (by simpa using hnd)
    (fun q hq => ⟨(hent q hq).1,
      fun p hp => ⟨((hent q hq).2 p hp).1, ((hent q hq).2 p hp).2.1⟩⟩)
  simpa using this

theorem C2_witness :
    MonitorState.roundTripWF
      [("u", [(⟨2021, 3, 14, 15, 9, 26, 0⟩, 1)]), ("v", [])] ∧
    json_to_data (data_to_json
        [("u", [(⟨2021, 3, 14, 15, 9, 26, 0⟩, 1)]), ("v", [])]) =
      .ok [("u", [(⟨2021, 3, 14, 15, 9, 26, 0⟩, 1)]), ("v", [])] :=
  ⟨by decide, C2_roundtrip _ (by decide)⟩

/-- Claim C3: `calculate_uptime [1,1,0,0] = 50.00` and
`calculate_uptime [1] = 100.0` hold, but `calculate_uptime []` raises
`ZeroDivisionError` (modelled by `none`): the division by a zero total
is NOT guarded in the code, contradicting the claim's third part. -/
theorem C3_eval :
    calculate_uptime [1, 1, 0, 0] = some 50 ∧
    calculate_uptime [1] = some 100 ∧
    calculate_uptime [] = none := by
  refine ⟨?_, ?_, rfl⟩
  · unfold calculate_uptime
    norm_num
    unfold pythonRound2 floorQ
    norm_num
  · unfold calculate_uptime
    norm_num
    unfold pythonRound2 floorQ
    norm_num

/-- Claim C4: if loading the dump file fails — opening/reading/
`json.load` (`none`), or `json_to_data` raising (`.error ()`) — monitor
construction still yields a state mapping every configured URL to an
empty history (and nothing else).  The logging side effect is outside
the embedding. -/
theorem C4_load_failure (urls : List String) (url : String) :
    (dictGet? (initData urls none) url =
      if url ∈ urls then some ([] : History) else none) ∧
    (∀ js, json_to_data js = .error () →
      dictGet? (initData urls (some js)) url =
        if url ∈ urls then some ([] : History) else none) := by
  refine ⟨initData_get_none urls url, ?_⟩
  intro js he
  rw [initData_some_err urls js he]
  exact initData_get_none urls url

theorem C4_witness :
    dictGet? (initData ["a"] (some [("u", [(['x'], 1)])])) "a" =
      if "a" ∈ ["a"] then some ([] : History) else none :=
  (C4_load_failure ["a"] "a").2 [("u", [(['x'], 1)])] rfl

/-- Claim C5: after a successful decode, the state's key set is exactly
the configured URL list: a URL is present (as a key) iff it is
configured — so dump URLs not in the configuration are dropped — and a
configured URL absent from the decoded dump gets an empty history. -/
theorem C5_restore_filter (urls : List String) (js : RawDump) (d : MonitorState)
    (hd : json_to_data js = .ok d) :
    (∀ url, (dictGet? (initData urls (some js)) url).isSome ↔ url ∈ urls) ∧
    (∀ url, url ∈ urls → dictGet? d url = none →
      dictGet? (initData urls (some js)) url = some []) := by
  constructor
  · intro url
    rw [initData_get_ok urls js d hd url]
    cases hf : dictGet? (d.filter (fun q => decide (q.1 ∈ urls))) url with
    | some h =>
      have hmem2 := dictGet?_some_mem _ _ _ hf
      rw [List.mem_filter, decide_eq_true_eq] at hmem2
      simp [hmem2.2]
    | none =>
      by_cases hm : url ∈ urls <;> simp [hm]
  · intro url hmem hnone
    rw [initData_get_ok urls js d hd url,
      dictGet?_filter_none _ _ _ hnone]
    simp [hmem]

theorem C5_witness :
    dictGet? (initData ["B"]
      (some [("A", [(("2020-01-02 03:04:05").toList, 1)])])) "B" = some [] :=
  (C5_restore_filter ["B"] [("A", [(("2020-01-02 03:04:05").toList, 1)])]
    [("A", [(⟨2020, 1, 2, 3, 4, 5, 0⟩, 1)])] rfl).2 "B" (by simp) rfl

/-- Claim C6: for a URL known to the store, `check_url` stores outcome 1
iff the HTTP status code is exactly 200, and 0 for any other status code
or any exception (network error, timeout, transport error); given the
URL is known, the probe step returns normally (`some`) — the request
exception is swallowed by the bare `except`. -/
theorem C6_check_url (st : MonitorState) (url : String) (pr : ProbeResult)
    (now : Datetime) (h : History) (hk : dictGet? st url = some h) :
    check_url st url pr now =
      some (dictInsert st url (dictInsert h now (outcomeOf pr))) ∧
    (outcomeOf pr = 1 ↔ pr = .response 200) ∧
    (outcomeOf pr = 0 ↔ pr ≠ .response 200) := by
  refine ⟨by unfold check_url; rw [hk], ?_, ?_⟩
  · cases pr with
    | exn => simp [outcomeOf]
    | response code =>
      by_cases hc : code = 200
      · subst hc; simp [outcomeOf]
      · simp [outcomeOf, hc]
  · cases pr with
    | exn => simp [outcomeOf]
    | response code =>
      by_cases hc : code = 200
      · subst hc; simp [outcomeOf]
      · simp [outcomeOf, hc]

theorem C6_witness :
    check_url [("u", [])] "u" (ProbeResult.response 404) ⟨2021, 1, 1, 0, 0, 0, 0⟩ =
      some (dictInsert [("u", [])] "u"
        (dictInsert [] ⟨2021, 1, 1, 0, 0, 0, 0⟩ (outcomeOf (ProbeResult.response 404)))) :=
  (C6_check_url [("u", [])] "u" (ProbeResult.response 404) ⟨2021, 1, 1, 0, 0, 0, 0⟩
    [] rfl).1

/-- Claim C7 fails on the code: `check_url` stores
`self.data[url][datetime.now()] = res` with the raw `datetime.now()`
value, sub-second component included (the truncating variant is
commented out on line 96).  A probe finishing at microsecond 500000
yields a stored instant whose sub-second part is non-zero. -/
theorem C7_counterexample :
    ∃ st', check_url [("u", [])] "u" ProbeResult.exn
        ⟨2021, 1, 1, 0, 0, 0, 500000⟩ = some st' ∧
      ∃ h, dictGet? st' "u" = some h ∧ ∃ p ∈ h, p.1.usec ≠ 0 := by
  refine ⟨[("u", [(⟨2021, 1, 1, 0, 0, 0, 500000⟩, 0)])], rfl,
    [(⟨2021, 1, 1, 0, 0, 0, 500000⟩, 0)], rfl,
    (⟨2021, 1, 1, 0, 0, 0, 500000⟩, 0), by simp, by decide⟩

/-- Claim C7, amended: `check_url` stores the probe-completion instant
exactly as produced by `datetime.now()`, with its sub-second component
preserved; truncation to second-level precision happens only when the
instant is serialized (`data_to_json` / `formatTrunc` ignores the
microseconds). -/
theorem C7_amended (st : MonitorState) (url : String) (pr : ProbeResult)
    (now : Datetime) (h : History) (hk : dictGet? st url = some h) :
    (∃ st', check_url st url pr now = some st' ∧
      dictGet? st' url = some (dictInsert h now (outcomeOf pr))) ∧
    ∀ dt : Datetime,
      formatTrunc dt = formatTrunc ⟨dt.year, dt.month, dt.day, dt.hour,
        dt.minute, dt.second, 0⟩ := by
  constructor
  · refine ⟨dictInsert st url (dictInsert h now (outcomeOf pr)), ?_, ?_⟩
    · unfold check_url
      rw [hk]
    · exact dictGet?_dictInsert_self st url _
  · intro dt
    rfl

theorem C7_amended_witness :
    ∃ st', check_url [("u", [])] "u" ProbeResult.exn
        ⟨2021, 1, 1, 0, 0, 0, 500000⟩ = some st' ∧
      dictGet? st' "u" =
        some (dictInsert [] ⟨2021, 1, 1, 0, 0, 0, 500000⟩ (outcomeOf ProbeResult.exn)) :=
  (C7_amended [("u", [])] "u" ProbeResult.exn ⟨2021, 1, 1, 0, 0, 0, 500000⟩ [] rfl).1

/-- Claim C8: if any timestamp key anywhere in the parsed dump fails
`strptime` (`none`), then `json_to_data` fails as a whole with the
raised error (`.error ()`), rather than silently dropping the entry;
the caller's `try` block therefore treats the entire load as failed. -/
theorem C8_bad_timestamp (j : RawDump) (url : String) (entries : RawHist)
    (ts : TsKey) (v : Int) (h1 : (url, entries) ∈ j) (h2 : (ts, v) ∈ entries)
    (h3 : strptime ts = none) : json_to_data j = .error () := by
  rw [json_to_data]
  exact jsonToDataAux_err j url entries h1 (histFromEntries_err entries ts v h2 h3 []) []

theorem C8_witness : json_to_data [("u", [(['x'], 1)])] = .error () :=
  C8_bad_timestamp [("u", [(['x'], 1)])] "u" [(['x'], 1)] ['x'] 1
    (by simp) (by simp) rfl

/-- Claim C9: `delete_expired` never removes a URL entry — the list of
URL keys after pruning equals the list before — and it only deletes
samples within histories: every sample present afterwards was present
before. -/
theorem C9_frame (w : Nat) (now : Datetime) (st : MonitorState) :
    (delete_expired w now st).map Prod.fst = st.map Prod.fst ∧
    ∀ url h', dictGet? (delete_expired w now st) url = some h' →
      ∃ h, dictGet? st url = some h ∧ ∀ p ∈ h', p ∈ h := by
  constructor
  · simp [delete_expired, List.map_map, Function.comp]
  · intro url h' hget
    rw [delete_expired_get] at hget
    cases hs : dictGet? st url with
    | none => rw [hs] at hget; cases hget
    | some h =>
      rw [hs, Option.map_some'] at hget
      injection hget with he
      refine ⟨h, rfl, ?_⟩
      intro p hp
      obtain ⟨t, v⟩ := p
      rw [← he] at hp
      exact ((mem_pruned w now h t v).mp hp).1

theorem C9_witness :
    ∃ h, dictGet? ([("u", [(⟨2021, 1, 1, 0, 0, 0, 0⟩, (1 : Int))])] : MonitorState)
        "u" = some h ∧ ∀ p ∈ ([] : History), p ∈ h :=
  (C9_frame 1 ⟨2022, 1, 1, 0, 0, 0, 0⟩
    [("u", [(⟨2021, 1, 1, 0, 0, 0, 0⟩, 1)])]).2 "u" [] (by decide)

/-- Claim C10: restore-at-startup is atomic with respect to decode
failure: if the parsed dump contains a malformed timestamp,
`json_to_data` raises before `self.data` is assigned, so construction
yields exactly the same state as when no dump could be read at all —
an empty history per configured URL and nothing else. -/
theorem C10_atomic_restore (urls : List String) (js : RawDump) (url0 : String)
    (entries : RawHist) (ts : TsKey) (v : Int)
    (h1 : (url0, entries) ∈ js) (h2 : (ts, v) ∈ entries) (h3 : strptime ts = none) :
    initData urls (some js) = initData urls none ∧
    ∀ url, dictGet? (initData urls (some js)) url =
      if url ∈ urls then some ([] : History) else none := by
  have herr : json_to_data js = .error () := by
    rw [json_to_data]
    exact jsonToDataAux_err js url0 entries h1 (histFromEntries_err entries ts v h2 h3 []) []
  refine ⟨initData_some_err urls js herr, ?_⟩
  intro url
  rw [initData_some_err urls js herr]
  exact initData_get_none urls url

theorem C10_witness :
    initData ["a"] (some [("u", [(['x'], 1)])]) = initData ["a"] none :=
  (C10_atomic_restore ["a"] [("u", [(['x'], 1)])] "u" [(['x'], 1)] ['x'] 1
    (by simp) (by simp) rfl).1
